import Mathlib

/-!
Verification of the execution-unit / thunk-sequence core and the CUDA
async allocator of this repository, as a shallow embedding in Lean 4.

Sources embedded:
* `src/third_party/xla/xla/service/cpu/runtime/thunk.h` — the `Thunk`
  execution unit (Kind, Info, buffer/resource uses) and `ThunkSequence`.
* `src/unnamed/part_000` — `GpuCudaMallocAsyncAllocator`
  (`AllocateRaw`, `DeallocateRaw`, statistics).

Bodies that live in translation units not present under `src/`
(`ThunkSequence::Append`, `ThunkSequence::buffer_uses`,
`ThunkSequence::resource_uses`, the `BufferUse`/`ResourceUse` headers)
are modelled from the specification, and marked so in their doc comments.
-/

namespace XlaCpu

/-- Access mode of a footprint element, spec §3: `access mode ∈ {Read, Write}`.
Mirrors `BufferUse::MemoryAccess` of `xla/runtime/buffer_use.h`. -/
inductive MemoryAccess where
  | read
  | write
deriving DecidableEq, Repr

/-- Modelled from the spec: `xla/runtime/buffer_use.h` is not under `src/`.
Spec §3 Buffer Use: "buffer-slice identifier (allocation + byte offset +
byte length)". -/
structure BufferSlice where
  allocation : Nat
  offset : Nat
  size : Nat
deriving DecidableEq, Repr

/-- Modelled from the spec: a buffer use is a buffer-slice identifier plus
an access mode (spec §3, Buffer Use). -/
structure BufferUse where
  slice : BufferSlice
  access : MemoryAccess
deriving DecidableEq, Repr

/-- Modelled from the spec: `xla/service/cpu/runtime/resource_use.h` is not
under `src/`. Spec §3 Resource Use: "abstract resource identifier …, access
mode ∈ {Read, Write}". -/
structure ResourceUse where
  resource : Nat
  access : MemoryAccess
deriving DecidableEq, Repr

/-- Modelled from the spec: two byte ranges in the same allocation overlap,
i.e. the half-open intervals `[offset, offset+size)` intersect. -/
def BufferSlice.overlapsWith (a b : BufferSlice) : Bool :=
  a.allocation == b.allocation &&
    decide (a.offset < b.offset + b.size) && decide (b.offset < a.offset + a.size)

/-- Modelled from the spec: "Two buffer uses *conflict* iff their slices
overlap in the same allocation and at least one is Write" (spec §3);
`Conflicts(a, b)`: "identifier/slice overlap AND (a.mode = Write OR
b.mode = Write)" (spec §4.2). -/
def BufferUse.conflictsWith (a b : BufferUse) : Bool :=
  a.slice.overlapsWith b.slice && (a.access == .write || b.access == .write)

/-- Modelled from the spec: "Conflict rule mirrors buffer use: same
identifier and at least one Write ⇒ conflict" (spec §3, Resource Use). -/
def ResourceUse.conflictsWith (a b : ResourceUse) : Bool :=
  a.resource == b.resource && (a.access == .write || b.access == .write)

/-- `Thunk::Kind`, `thunk.h` lines 68–88: the closed enum of thunk kinds. -/
inductive Kind where
  | kAllGather
  | kAllReduce
  | kAllToAll
  | kCall
  | kCollectivePermute
  | kCopy
  | kConditional
  | kConvolution
  | kCustomCall
  | kDot
  | kFft
  | kInfeed
  | kKernel
  | kOutfeed
  | kPartitionId
  | kReduceScatter
  | kReplicaId
  | kRngGetAndUpdateState
  | kWhile
deriving DecidableEq, Repr

/-- The 19 enumerators of `Thunk::Kind` in source order. -/
def Kind.all : List Kind :=
  [.kAllGather, .kAllReduce, .kAllToAll, .kCall, .kCollectivePermute, .kCopy,
   .kConditional, .kConvolution, .kCustomCall, .kDot, .kFft, .kInfeed,
   .kKernel, .kOutfeed, .kPartitionId, .kReduceScatter, .kReplicaId,
   .kRngGetAndUpdateState, .kWhile]

/-- `Thunk::Info`, `thunk.h` lines 90–94: operation name, module name,
module id. -/
structure Info where
  op_name : String
  module_name : String
  module_id : Int
deriving DecidableEq, Repr

/-- A `Thunk` as the scheduler sees it (`thunk.h` lines 66–231): immutable
`kind_` and `info_` set at construction, a virtual `buffer_uses()` and a
virtual `resource_uses()`. A subclass either overrides `resource_uses()`
(field `some uses`) or inherits the base-class default (field `none`). -/
structure Thunk where
  kind : Kind
  info : Info
  bufferUsesImpl : List BufferUse
  resourceUsesOverride : Option (List ResourceUse) := none

/-- `Thunk::buffer_uses()`, `thunk.h` line 122: pure virtual, supplied by
the subclass. -/
def Thunk.buffer_uses (t : Thunk) : List BufferUse :=
  t.bufferUsesImpl

/-- `Thunk::resource_uses()`, `thunk.h` line 130: virtual with default
implementation `{ return {}; }`; a subclass override replaces it. -/
def Thunk.resource_uses (t : Thunk) : List ResourceUse :=
  t.resourceUsesOverride.getD []

/-- `ThunkSequence`, `thunk.h` line 236: an ordered owned vector of thunks. -/
abbrev ThunkSequence : Type := List Thunk

/-- `ThunkSequence::Empty()`, `thunk.h` line 241. -/
def ThunkSequence.Empty : ThunkSequence := ([] : List Thunk)

/-- Modelled from the spec: the private constructor
`ThunkSequence(std::unique_ptr<Thunk> thunk)` (`thunk.h` line 262) has its
body outside `src/`; per the comment on `ThunkSequence::Of` it builds "a
thunk sequence that contains a single thunk". -/
def ThunkSequence.ofSingle (t : Thunk) : ThunkSequence := ([t] : List Thunk)

/-- `ThunkSequence::Of<T>`, `thunk.h` lines 245–251: `TF_ASSIGN_OR_RETURN`
propagates the error of `T::Create`; otherwise the single created thunk is
wrapped into a sequence. The factory `T::Create` is abstracted as the
`Except` value it produces. -/
def ThunkSequence.Of {ε : Type} (create : Except ε Thunk) : Except ε ThunkSequence :=
  create.bind fun thunk => Except.ok (ThunkSequence.ofSingle thunk)

/-- Modelled from the spec: `ThunkSequence::Append` (`thunk.h` line 259) has
its body outside `src/`; spec §3: mutation is "concatenating another
sequence, which exclusively transfers ownership of its units". -/
def ThunkSequence.Append (s other : ThunkSequence) : ThunkSequence :=
  (s : List Thunk) ++ (other : List Thunk)

/-- Modelled from the spec: `ThunkSequence::buffer_uses()` (`thunk.h` line
254) has its body outside `src/`; spec §3: "Aggregate buffer/resource uses
= the union of all contained units' uses", in program order. -/
def ThunkSequence.buffer_uses (s : ThunkSequence) : List BufferUse :=
  ((s : List Thunk).map Thunk.buffer_uses).flatten

/-- Modelled from the spec: `ThunkSequence::resource_uses()` (`thunk.h`
line 257) has its body outside `src/`; aggregate of the members' resource
uses, in program order. -/
def ThunkSequence.resource_uses (s : ThunkSequence) : List ResourceUse :=
  ((s : List Thunk).map Thunk.resource_uses).flatten

/-- A live thunk object (`thunk.h` lines 107–230): the base class stores
`kind_` and `info_` as private members set once by the constructor (line
107) with no mutating member, copy and assignment deleted (lines 109–110);
any mutable state of a subclass is its own and is abstracted here as a
value of type `σ`. -/
structure ThunkObj (σ : Type) where
  kind : Kind
  info : Info
  internal : σ

/-- The public operations of a thunk (`thunk.h`): the accessors `kind()`,
`info()`, `buffer_uses()`, `resource_uses()` are const; `Execute` may
update the subclass's private state, abstracted as an arbitrary function
on `σ` since the base-class members are inaccessible to subclasses. -/
inductive ThunkOp (σ : Type) where
  | queryKind
  | queryInfo
  | queryBufferUses
  | queryResourceUses
  | execute (f : σ → σ)

/-- Effect of one public operation on a thunk object: const accessors
leave it unchanged, `Execute` rewrites only the subclass state. -/
def ThunkObj.step {σ : Type} (t : ThunkObj σ) (op : ThunkOp σ) : ThunkObj σ :=
  match op with
  | .execute f => { t with internal := f t.internal }
  | _ => t

/-- Run a sequence of public operations on a thunk object. -/
def ThunkObj.run {σ : Type} (t : ThunkObj σ) (ops : List (ThunkOp σ)) : ThunkObj σ :=
  ops.foldl ThunkObj.step t

/-! ### GpuCudaMallocAsyncAllocator (`src/unnamed/part_000`) -/

/-- `tsl::AllocatorStats` as used by the allocator (`part_000` lines
387–401, 441–447, 475–482): all counters are `int64_t`. -/
structure AllocatorStats where
  num_allocs : Int
  bytes_in_use : Int
  peak_bytes_in_use : Int
  largest_alloc_size : Int
deriving DecidableEq, Repr

/-- Result of a CUDA driver allocation call (`cuMemAllocFromPoolAsync`):
success writes an address, or fails with `CUDA_ERROR_OUT_OF_MEMORY` or
another error. Address `0` models `nullptr`. -/
inductive CuResult where
  | success (ptr : Nat)
  | outOfMemory
  | otherError
deriving DecidableEq, Repr

/-- Result of a CUDA driver free call (`cuMemFreeAsync`): success,
`CUDA_ERROR_DEINITIALIZED` (ignored by the code), or another error. -/
inductive FreeResult where
  | success
  | deinitialized
  | otherError
deriving DecidableEq, Repr

/-- Driver calls the allocator issues, recorded as a trace. -/
inductive DriverCall where
  | memAllocFromPoolAsync (num_bytes : Nat)
  | memFreeAsync (ptr : Nat)
  | streamSynchronize
  | memGetInfo
deriving DecidableEq, Repr

/-- The allocator state relevant to `AllocateRaw` / `DeallocateRaw`:
`stats_` (null unless `compute_stats`), `size_map_` (pointer → requested
size, unique keys as in `std::map`), `cuda_stream_`, `pool_` (0-valued
option models a null handle) and `sync_mode_`. -/
structure AllocatorState where
  stats : Option AllocatorStats
  size_map : List (Nat × Nat)
  cuda_stream : Option Nat
  pool : Option Nat
  sync_mode : Bool
deriving DecidableEq, Repr

/-- Keys currently present in the size map. -/
def sizeMapKeys (m : List (Nat × Nat)) : List Nat := m.map Prod.fst

/-- `std::map::emplace(ptr, size)`: inserts only when the key is absent
(`part_000` line 399; the `DCHECK(ptr_inserted)` expects absence). -/
def sizeMapEmplace (m : List (Nat × Nat)) (k v : Nat) : List (Nat × Nat) :=
  if (m.lookup k).isSome then m else (k, v) :: m

/-- `std::map::erase(ptr)`: removes the entry with this key. -/
def sizeMapErase (m : List (Nat × Nat)) (k : Nat) : List (Nat × Nat) :=
  m.filter (fun e => e.1 ≠ k)

/-- Outcome of `AllocateRaw`: returned address (`0` = `nullptr`), the
allocator state afterwards, and the trace of driver calls made. -/
structure AllocResult where
  ret : Nat
  state : AllocatorState
  calls : List DriverCall
deriving DecidableEq, Repr

/-- `GpuCudaMallocAsyncAllocator::AllocateRaw` (`part_000` lines 339–407).
`r1` and `r2` are the driver's answers to the first and (if the first was
out-of-memory) retried `cuMemAllocFromPoolAsync`. `none` models the
crashing paths: the `CHECK` on a missing stream (line 342) and the fatal
log on a null pool (lines 344–348). On driver failure the error is logged
(with `cuMemGetInfo`) and `nullptr` is returned with the state untouched;
on success the statistics, when enabled, are updated under the lock
(lines 387–401). -/
def AllocateRaw (s : AllocatorState) (alignment num_bytes : Nat)
    (r1 r2 : CuResult) : Option AllocResult :=
  if s.cuda_stream = none then none
  else if s.pool = none then none
  else
    let retried := r1 = CuResult.outOfMemory
    let result := if retried then r2 else r1
    let attempts : List DriverCall :=
      if retried then
        [.memAllocFromPoolAsync num_bytes, .streamSynchronize,
         .memAllocFromPoolAsync num_bytes]
      else [.memAllocFromPoolAsync num_bytes]
    match result with
    | .success p =>
        let syncCalls : List DriverCall :=
          if s.sync_mode then [.streamSynchronize] else []
        let state' :=
          match s.stats with
          | none => s
          | some st =>
              { s with
                stats := some
                  { num_allocs := st.num_allocs + 1
                    bytes_in_use := st.bytes_in_use + (num_bytes : Int)
                    peak_bytes_in_use :=
                      max st.peak_bytes_in_use (st.bytes_in_use + (num_bytes : Int))
                    largest_alloc_size :=
                      max st.largest_alloc_size (num_bytes : Int) }
                size_map := sizeMapEmplace s.size_map p num_bytes }
        some { ret := p, state := state', calls := attempts ++ syncCalls }
    | _ => some { ret := 0, state := s, calls := attempts ++ [.memGetInfo] }

/-- `GpuCudaMallocAsyncAllocator::DeallocateRaw` (`part_000` lines
408–451). A null pointer returns immediately (line 410). Otherwise
`cuMemFreeAsync` is issued (`fr` is the driver's answer; an error other
than `CUDA_ERROR_DEINITIALIZED` logs with `cuMemGetInfo`), then, when
statistics are enabled, `size_map_[ptr]` is read, subtracted from
`bytes_in_use` and the entry erased (lines 441–447). Returns the state
afterwards and the driver-call trace. -/
def DeallocateRaw (s : AllocatorState) (ptr : Nat) (fr : FreeResult) :
    AllocatorState × List DriverCall :=
  if ptr = 0 then (s, [])
  else
    let errCalls : List DriverCall :=
      match fr with
      | .otherError => [.memGetInfo]
      | _ => []
    let syncCalls : List DriverCall :=
      if s.sync_mode then [.streamSynchronize] else []
    let state' :=
      match s.stats with
      | none => s
      | some st =>
          let size := (s.size_map.lookup ptr).getD 0
          { s with
            stats := some { st with bytes_in_use := st.bytes_in_use - (size : Int) }
            size_map := sizeMapErase s.size_map ptr }
    (state', [.memFreeAsync ptr] ++ errCalls ++ syncCalls)

/-- The statistics invariant of the allocator: size-map keys are unique
(as in `std::map`) and, when statistics are enabled, `bytes_in_use` is
the sum of the recorded sizes and never exceeds `peak_bytes_in_use`. -/
def StatsInvariant (s : AllocatorState) : Prop :=
  (sizeMapKeys s.size_map).Nodup ∧
  ∀ st, s.stats = some st →
    st.bytes_in_use = (s.size_map.map (fun e => (e.2 : Int))).sum ∧
    st.bytes_in_use ≤ st.peak_bytes_in_use

/-- A sample thunk used to exercise the sequence operations on concrete
inputs. -/
def sampleThunk (n : Nat) : Thunk :=
  { kind := Kind.kCopy
    info := { op_name := "op", module_name := "m", module_id := (n : Int) }
    bufferUsesImpl := [⟨⟨0, 0, 64⟩, MemoryAccess.write⟩]
    resourceUsesOverride := none }

/-- A sample allocator state with statistics enabled, used to exercise the
allocator operations on concrete inputs. -/
def sampleAllocState : AllocatorState :=
  { stats := some { num_allocs := 1, bytes_in_use := 8, peak_bytes_in_use := 8,
                    largest_alloc_size := 8 }
    size_map := [(7, 8)]
    cuda_stream := some 1
    pool := some 1
    sync_mode := false }

/-! ### Theorems -/

/-- Claim C1: the conflict predicate on two footprint elements of the same
category holds iff their identifiers/slices overlap and at least one mode
is Write; Read/Read never conflicts; and the predicate is symmetric, for
buffer uses and resource uses alike. -/
theorem conflictsWith_overlap_write_symm :
    (∀ a b : BufferUse,
        a.conflictsWith b = true ↔
          (a.slice.allocation = b.slice.allocation ∧
           a.slice.offset < b.slice.offset + b.slice.size ∧
           b.slice.offset < a.slice.offset + a.slice.size ∧
           (a.access = MemoryAccess.write ∨ b.access = MemoryAccess.write))) ∧
    (∀ sa sb : BufferSlice,
        BufferUse.conflictsWith ⟨sa, MemoryAccess.read⟩ ⟨sb, MemoryAccess.read⟩ = false) ∧
    (∀ a b : BufferUse, a.conflictsWith b = b.conflictsWith a) ∧
    (∀ a b : ResourceUse,
        a.conflictsWith b = true ↔
          (a.resource = b.resource ∧
           (a.access = MemoryAccess.write ∨ b.access = MemoryAccess.write))) ∧
    (∀ ra rb : Nat,
        ResourceUse.conflictsWith ⟨ra, MemoryAccess.read⟩ ⟨rb, MemoryAccess.read⟩ = false) ∧
    (∀ a b : ResourceUse, a.conflictsWith b = b.conflictsWith a) := by
  refine ⟨?_, ?_, ?_, ?_, ?_, ?_⟩
  · intro a b
    simp [BufferUse.conflictsWith, BufferSlice.overlapsWith, and_assoc]
  · intro sa sb
    simp [BufferUse.conflictsWith]
  · intro a b
    simp only [BufferUse.conflictsWith, BufferSlice.overlapsWith]
    rw [Bool.eq_iff_iff]
    simp only [Bool.and_eq_true, Bool.or_eq_true, beq_iff_eq, decide_eq_true_eq]
    constructor
    · rintro ⟨⟨⟨h1, h2⟩, h3⟩, h4⟩
      exact ⟨⟨⟨h1.symm, h3⟩, h2⟩, h4.symm⟩
    · rintro ⟨⟨⟨h1, h2⟩, h3⟩, h4⟩
      exact ⟨⟨⟨h1.symm, h3⟩, h2⟩, h4.symm⟩
  · intro a b
    simp [ResourceUse.conflictsWith]
  · intro ra rb
    simp [ResourceUse.conflictsWith]
  · intro a b
    simp only [ResourceUse.conflictsWith]
    rw [Bool.eq_iff_iff]
    simp only [Bool.and_eq_true, Bool.or_eq_true, beq_iff_eq]
    constructor
    · rintro ⟨h1, h2⟩
      exact ⟨h1.symm, h2.symm⟩
    · rintro ⟨h1, h2⟩
      exact ⟨h1.symm, h2.symm⟩

/-- Claim C2: `ThunkSequence::Append` concatenates the other sequence onto
the end: every unit already in the sequence keeps its position (so the
relative program order of existing units is preserved), the appended
units follow in their own order, and the length is the sum. -/
theorem thunkSequence_append_preserves_order :
    ∀ s other : ThunkSequence,
      (ThunkSequence.Append s other).length = s.length + other.length ∧
      (∀ i : Nat, i < s.length → (ThunkSequence.Append s other)[i]? = s[i]?) ∧
      (∀ j : Nat, (ThunkSequence.Append s other)[s.length + j]? = other[j]?) := by
  intro s other
  refine ⟨?_, ?_, ?_⟩
  · simp [ThunkSequence.Append]
  · intro i hi
    simp [ThunkSequence.Append, List.getElem?_append_left hi]
  · intro j
    simp [ThunkSequence.Append, List.getElem?_append_right (Nat.le_add_right _ _)]

/-- Witness for C2 at a concrete two-element sequence and one appended
unit. -/
theorem thunkSequence_append_preserves_order_witness :
    (ThunkSequence.Append [sampleThunk 1, sampleThunk 2] [sampleThunk 3])[1]? =
      some (sampleThunk 2) := by
  have h := thunkSequence_append_preserves_order [sampleThunk 1, sampleThunk 2] [sampleThunk 3]
  rw [h.2.1 1 (by simp)]
  rfl

/-- Claim C3: the aggregate `buffer_uses()` of a thunk sequence contains
exactly the buffer uses of its member thunks, and `resource_uses()`
likewise: membership in the aggregate is equivalent to membership in some
member's footprint. -/
theorem thunkSequence_uses_are_union :
    ∀ s : ThunkSequence,
      (∀ u : BufferUse,
        u ∈ s.buffer_uses ↔ ∃ t, t ∈ s ∧ u ∈ t.buffer_uses) ∧
      (∀ r : ResourceUse,
        r ∈ s.resource_uses ↔ ∃ t, t ∈ s ∧ r ∈ t.resource_uses) := by
  intro s
  constructor
  · intro u
    simp [ThunkSequence.buffer_uses, List.mem_flatten]
  · intro r
    simp [ThunkSequence.resource_uses, List.mem_flatten]

/-- Claim C4: the base-class default of `resource_uses()` returns the empty
vector: a thunk that does not override it has `resource_uses() = []`. -/
theorem resource_uses_default_empty :
    ∀ t : Thunk, t.resourceUsesOverride = none → t.resource_uses = [] := by
  intro t h
  simp [Thunk.resource_uses, h]

/-- Witness for C4 at a concrete non-overriding thunk. -/
theorem resource_uses_default_empty_witness :
    (sampleThunk 0).resource_uses = [] :=
  resource_uses_default_empty (sampleThunk 0) rfl

/-- Claim C5: a thunk's identity is immutable: after any sequence of public
operations (const accessors and `Execute`, which can only touch the
subclass's own state), `kind` and `info` are still the construction-time
values. -/
theorem thunk_identity_immutable :
    ∀ (σ : Type) (k : Kind) (i : Info) (st : σ) (ops : List (ThunkOp σ)),
      ((ThunkObj.mk k i st).run ops).kind = k ∧
      ((ThunkObj.mk k i st).run ops).info = i := by
  intro σ k i st ops
  suffices h : ∀ (ops : List (ThunkOp σ)) (t : ThunkObj σ),
      (t.run ops).kind = t.kind ∧ (t.run ops).info = t.info from h ops _
  intro ops
  induction ops with
  | nil => intro t; exact ⟨rfl, rfl⟩
  | cons op rest ih =>
      intro t
      have h1 := ih (t.step op)
      have h2 : (t.step op).kind = t.kind ∧ (t.step op).info = t.info := by
        cases op <;> simp [ThunkObj.step]
      simp only [ThunkObj.run, List.foldl_cons] at h1 ⊢
      exact ⟨h1.1.trans h2.1, h1.2.trans h2.2⟩

/-- Claim C7: `Thunk::Kind` is a closed set of exactly 19 kinds: the
enumeration `Kind.all` has 19 distinct entries and every kind is one of
them. -/
theorem kind_closed_set_of_19 :
    Kind.all.length = 19 ∧ Kind.all.Nodup ∧ ∀ k : Kind, k ∈ Kind.all := by
  refine ⟨rfl, by decide, ?_⟩
  intro k
  cases k <;> simp [Kind.all]

/-- Claim C8: `ThunkSequence::Of` propagates the error of `T::Create`
unchanged when creation fails, and on success returns the sequence holding
exactly the single created thunk. -/
theorem thunkSequence_of_create :
    ∀ (ε : Type) (e : ε) (t : Thunk),
      ThunkSequence.Of (Except.error e) = (Except.error e : Except ε ThunkSequence) ∧
      ThunkSequence.Of (Except.ok t) = (Except.ok [t] : Except ε ThunkSequence) := by
  intro ε e t
  exact ⟨rfl, rfl⟩

/-! Helper lemmas about the size map. -/

/-- Unfolding `List.lookup` on a cons cell. -/
theorem sizeMap_lookup_cons (k v a : Nat) (es : List (Nat × Nat)) :
    ((k, v) :: es).lookup a = if a = k then some v else es.lookup a := by
  simp only [List.lookup]
  by_cases h : a = k
  · simp [h]
  · simp [h, beq_eq_false_iff_ne.mpr h]

/-- Lookup of a key absent from the map fails. -/
theorem sizeMap_lookup_eq_none {m : List (Nat × Nat)} {a : Nat}
    (h : a ∉ sizeMapKeys m) : m.lookup a = none := by
  induction m with
  | nil => rfl
  | cons e m ih =>
      obtain ⟨k, v⟩ := e
      simp only [sizeMapKeys, List.map_cons, List.mem_cons, not_or] at h
      rw [sizeMap_lookup_cons, if_neg h.1]
      exact ih (by simpa [sizeMapKeys] using h.2)

/-- After erasing a key it can no longer be looked up. -/
theorem sizeMapErase_lookup (m : List (Nat × Nat)) (p : Nat) :
    (sizeMapErase m p).lookup p = none := by
  induction m with
  | nil => rfl
  | cons e m ih =>
      obtain ⟨k, v⟩ := e
      by_cases h : k = p
      · simpa [sizeMapErase, h] using ih
      · rw [sizeMapErase, List.filter_cons_of_pos (by simpa using h),
          sizeMap_lookup_cons, if_neg (fun hh => h hh.symm)]
        exact ih

/-- Erasing preserves distinctness of the keys. -/
theorem sizeMapErase_keys_nodup (m : List (Nat × Nat)) (p : Nat)
    (h : (sizeMapKeys m).Nodup) : (sizeMapKeys (sizeMapErase m p)).Nodup :=
  h.sublist (List.Sublist.map Prod.fst (List.filter_sublist m))

/-- Erasing an absent key leaves the map unchanged. -/
theorem sizeMapErase_of_not_mem (m : List (Nat × Nat)) (p : Nat)
    (h : p ∉ sizeMapKeys m) : sizeMapErase m p = m := by
  apply List.filter_eq_self.mpr
  intro e he
  simp only [sizeMapKeys, List.mem_map] at h
  simp only [ne_eq, decide_eq_true_eq]
  intro hep
  exact h ⟨e, he, hep⟩

/-- Erasing a key with recorded size `z` from a map with distinct keys
decreases the total of recorded sizes by exactly `z`. -/
theorem sizeMapErase_sum (m : List (Nat × Nat)) (p z : Nat)
    (hnd : (sizeMapKeys m).Nodup) (hz : m.lookup p = some z) :
    ((sizeMapErase m p).map (fun e => (e.2 : Int))).sum
      = (m.map (fun e => (e.2 : Int))).sum - (z : Int) := by
  induction m with
  | nil => simp [List.lookup] at hz
  | cons e m ih =>
      obtain ⟨k, v⟩ := e
      simp only [sizeMapKeys, List.map_cons, List.nodup_cons] at hnd
      rw [sizeMap_lookup_cons] at hz
      by_cases h : p = k
      · rw [if_pos h] at hz
        obtain rfl := Option.some.inj hz
        rw [sizeMapErase, List.filter_cons_of_neg (by simp [h])]
        rw [show List.filter (fun e => decide (e.1 ≠ p)) m = sizeMapErase m p from rfl,
          sizeMapErase_of_not_mem m p (h ▸ hnd.1)]
        simp only [List.map_cons, List.sum_cons]
        ring
      · rw [if_neg h] at hz
        rw [sizeMapErase, List.filter_cons_of_pos (by simp; exact fun hh => h hh.symm)]
        have := ih (by simpa [sizeMapKeys] using hnd.2) hz
        simp only [sizeMapErase] at this
        simp only [List.map_cons, List.sum_cons, this]
        ring

/-- Claim C6: `AllocateRaw` either returns the address delivered by the
driver (also when only the retry after a stream synchronization succeeds)
or, when the allocation is out of memory even after the retry, returns the
null address with the allocator state — statistics and size map included —
unchanged. -/
theorem allocateRaw_valid_or_oom :
    ∀ (s : AllocatorState) (alignment num_bytes a : Nat) (r2 : CuResult),
      s.cuda_stream ≠ none → s.pool ≠ none →
      ((AllocateRaw s alignment num_bytes (CuResult.success a) r2).map AllocResult.ret
          = some a) ∧
      ((AllocateRaw s alignment num_bytes CuResult.outOfMemory (CuResult.success a)).map
          AllocResult.ret = some a) ∧
      ((AllocateRaw s alignment num_bytes CuResult.outOfMemory CuResult.outOfMemory).map
          AllocResult.ret = some 0) ∧
      ((AllocateRaw s alignment num_bytes CuResult.outOfMemory CuResult.outOfMemory).map
          AllocResult.state = some s) := by
  intro s alignment num_bytes a r2 h1 h2
  refine ⟨?_, ?_, ?_, ?_⟩ <;> simp [AllocateRaw, h1, h2]

/-- Witness for C6 at a concrete allocator state, address and size. -/
theorem allocateRaw_valid_or_oom_witness :
    ((AllocateRaw sampleAllocState 0 64 (CuResult.success 42) CuResult.otherError).map
        AllocResult.ret = some 42) ∧
    ((AllocateRaw sampleAllocState 0 64 CuResult.outOfMemory CuResult.outOfMemory).map
        AllocResult.state = some sampleAllocState) := by
  have h := allocateRaw_valid_or_oom sampleAllocState 0 64 42 CuResult.otherError
      (by decide) (by decide)
  exact ⟨h.1, h.2.2.2⟩

/-- Claim C9: freeing the null pointer is a no-op: `DeallocateRaw` returns
at once with the allocator state unchanged and no driver call issued. -/
theorem deallocateRaw_null_noop :
    ∀ (s : AllocatorState) (fr : FreeResult),
      DeallocateRaw s 0 fr = (s, ([] : List DriverCall)) := by
  intro s fr
  simp [DeallocateRaw]

/-- Claim C10: with statistics enabled, `bytes_in_use` equals the sum of
the sizes recorded in the size map and never exceeds `peak_bytes_in_use`;
a successful `AllocateRaw` of a fresh address records the new entry and
adds its size, a `DeallocateRaw` of a live pointer removes the entry and
subtracts exactly the recorded size, and both operations preserve the
invariant. -/
theorem allocator_stats_invariant_preserved :
    (∀ (s : AllocatorState) (alignment num_bytes a : Nat) (r2 : CuResult)
        (out : AllocResult),
        StatsInvariant s → a ∉ sizeMapKeys s.size_map →
        AllocateRaw s alignment num_bytes (CuResult.success a) r2 = some out →
        StatsInvariant out.state ∧
        (∀ st, s.stats = some st →
          ∃ st', out.state.stats = some st' ∧
            st'.bytes_in_use = st.bytes_in_use + (num_bytes : Int) ∧
            out.state.size_map.lookup a = some num_bytes)) ∧
    (∀ (s : AllocatorState) (p z : Nat) (fr : FreeResult),
        StatsInvariant s → s.size_map.lookup p = some z → p ≠ 0 →
        StatsInvariant (DeallocateRaw s p fr).1 ∧
        (∀ st, s.stats = some st →
          ∃ st', (DeallocateRaw s p fr).1.stats = some st' ∧
            st'.bytes_in_use = st.bytes_in_use - (z : Int) ∧
            (DeallocateRaw s p fr).1.size_map.lookup p = none)) := by
  constructor
  · intro s alignment num_bytes a r2 out hInv hNotMem hEq
    obtain ⟨hnd, hstats⟩ := hInv
    have hlook : s.size_map.lookup a = none := sizeMap_lookup_eq_none hNotMem
    by_cases h1 : s.cuda_stream = none
    · simp [AllocateRaw, h1] at hEq
    by_cases h2 : s.pool = none
    · simp [AllocateRaw, h1, h2] at hEq
    rcases hst : s.stats with _ | st
    · simp [AllocateRaw, h1, h2, hst] at hEq
      obtain rfl := hEq.symm
      refine ⟨⟨hnd, ?_⟩, ?_⟩
      · intro st0 h0
        exact hstats st0 h0
      · intro st0 h0
        exact absurd h0 (by simp)
    · simp [AllocateRaw, h1, h2, hst, sizeMapEmplace, hlook] at hEq
      obtain rfl := hEq.symm
      constructor
      · constructor
        · exact List.nodup_cons.mpr ⟨hNotMem, hnd⟩
        · intro st0 h0
          obtain rfl := (Option.some.inj h0).symm
          obtain ⟨hb, hp⟩ := hstats st hst
          constructor
          · simp only [List.map_cons, List.sum_cons, hb]
            ring
          · exact le_max_right _ _
      · intro st0 h0
        obtain rfl := Option.some.inj h0
        refine ⟨_, rfl, rfl, ?_⟩
        rw [sizeMap_lookup_cons, if_pos rfl]
  · intro s p z fr hInv hz hp0
    obtain ⟨hnd, hstats⟩ := hInv
    rcases hst : s.stats with _ | st
    · simp only [DeallocateRaw, if_neg hp0, hst]
      refine ⟨⟨hnd, hstats⟩, ?_⟩
      intro st0 h0
      exact absurd h0 (by simp)
    · simp only [DeallocateRaw, if_neg hp0, hst]
      have hsum := sizeMapErase_sum s.size_map p z hnd hz
      refine ⟨?_, ?_⟩
      · refine ⟨?_, ?_⟩
        · exact sizeMapErase_keys_nodup s.size_map p hnd
        · intro st0 h0
          obtain rfl := (Option.some.inj h0).symm
          obtain ⟨hb, hpk⟩ := hstats st hst
          constructor
          · simp only [hz, Option.getD_some, hsum, hb]
          · simp only [hz, Option.getD_some]
            have : (z : Int) ≥ 0 := Int.natCast_nonneg z
            omega
      · intro st0 h0
        obtain rfl := Option.some.inj h0
        refine ⟨_, rfl, ?_, ?_⟩
        · simp [hz]
        · exact sizeMapErase_lookup s.size_map p

/-- Witness for C10: the invariant holds of the sample state and is kept
by deallocating its one live pointer. -/
theorem allocator_stats_invariant_preserved_witness :
    StatsInvariant (DeallocateRaw sampleAllocState 7 FreeResult.success).1 := by
  have hInv : StatsInvariant sampleAllocState := by
    constructor
    · decide
    · intro st h
      obtain rfl := Option.some.inj h.symm
      exact ⟨by decide, by decide⟩
  exact (allocator_stats_invariant_preserved.2 sampleAllocState 7 8 FreeResult.success
      hInv (by decide) (by decide)).1

end XlaCpu
